import Mathlib

/-!
Verification development for the client-side state-synchronization core of
`python-libjuju` (`juju/model.py`).

The embedding is a direct functional translation of the source:

* Python `dict`s become association lists (`alookup` mirrors `dict.__getitem__`
  on a missing key by returning `none`, which the callers turn into `KeyError`).
* The per-entity `collections.deque` history becomes a `List Snapshot`;
  `dequeGet` mirrors Python sequence indexing, including the negative-index
  convention and the `IndexError` (modelled as `none`) outside `[-len, len-1]`.
* Exceptions become `Except PyError`; `get_entity` catches `IndexError` only,
  exactly as the `try/except IndexError` in the source does.
* Mutation of the shared model state becomes explicit state passing:
  `apply_delta` returns the updated `ModelState` next to the `(old, new)` pair.
-/

/-- Entity type tag, e.g. `"application"`, `"machine"`, `"unit"`. -/
abbrev EntityKind := String

/-- Entity identifier within its kind. -/
abbrev EntityId := String

/-- The duck-typed data mapping carried by a delta / snapshot (field name to
value; values are kept abstract as strings, which suffices for every claim). -/
abbrev EntityData := List (String × String)

/-- One history entry: a data mapping, or `none` for a tombstone
(`history.append(None)` in the source). -/
abbrev Snapshot := Option EntityData

/-- Per-entity append-only history (`collections.deque` in the source). -/
abbrev EntityHistory := List Snapshot

/-- The change type of a delta record. -/
inductive DeltaType where
  | add
  | change
  | remove
deriving DecidableEq, Repr

/-- An incremental change record, as consumed by `ModelState.apply_delta`.
`data` is the delta's payload (`delta.data` in the source); `none` models a
null payload. -/
structure Delta where
  entity : EntityKind
  type : DeltaType
  id : EntityId
  data : Option EntityData
deriving DecidableEq, Repr

/-- Python exceptions that the modelled code can raise. -/
inductive PyError where
  | keyError
  | indexError
  | deadEntity
  | attributeError
deriving DecidableEq, Repr

/-- First-match association-list lookup: `d[k]` on a Python dict, with `none`
for a missing key. -/
def alookup {β : Type} (k : String) : List (String × β) → Option β
  | [] => none
  | p :: rest => if p.1 = k then some p.2 else alookup k rest

/-- Combined `d.setdefault(k, dflt)` followed by an in-place update of the
stored value: updates the first entry with key `k` via `f`, or appends
`(k, f dflt)` when the key is absent (Python dicts preserve insertion
order, with new keys at the end). -/
def updateAssoc {β : Type} (m : List (String × β)) (k : String) (dflt : β) (f : β → β) :
    List (String × β) :=
  match m with
  | [] => [(k, f dflt)]
  | p :: rest => if p.1 = k then (p.1, f p.2) :: rest else p :: updateAssoc rest k dflt f

/-- Python sequence indexing on a deque/list of length `n`: index `i` is valid
iff `-n ≤ i ≤ n - 1`, a negative index selecting element `i + n`; outside that
range the access raises `IndexError`, modelled as `none`. -/
def dequeGet (h : EntityHistory) (i : Int) : Option Snapshot :=
  if 0 ≤ i then h.get? i.toNat
  else if i + (h.length : Int) < 0 then none
  else h.get? (i + (h.length : Int)).toNat

/-- The state store: `ModelState.state` is the nested
`dict[entity_type][entity_id] -> deque` of the source. -/
structure ModelState where
  state : List (EntityKind × List (EntityId × EntityHistory))
deriving Repr

/-- A `ModelEntity` (EntityView): a coordinate into the owning store's history.
In the source the view holds `entity_id`, a model back-reference,
`_history_index` and `connected`; `entity_type` is derived from the entity
class chosen by `get_entity_class(entity_type)`, so we record it directly. -/
structure ModelEntity where
  entity_type : EntityKind
  entity_id : EntityId
  history_index : Int
  connected : Bool
deriving DecidableEq, Repr

namespace ModelState

/-- `ModelState.entity_history`: `self.state[entity_type][entity_id]`;
a missing kind or id raises `KeyError`. -/
def entity_history (s : ModelState) (k : EntityKind) (eid : EntityId) :
    Except PyError EntityHistory :=
  match alookup k s.state with
  | none => .error .keyError
  | some m =>
    match alookup eid m with
    | none => .error .keyError
    | some h => .ok h

/-- `ModelState.entity_data`: `entity_history(...)[history_index]`; out-of-range
indexing raises `IndexError`. -/
def entity_data (s : ModelState) (k : EntityKind) (eid : EntityId) (idx : Int) :
    Except PyError Snapshot :=
  match s.entity_history k eid with
  | .error e => .error e
  | .ok h =>
    match dequeGet h idx with
    | none => .error .indexError
    | some snap => .ok snap

/-- `ModelState.get_entity`: normalises a negative index other than `-1` by
adding the history length, probes `entity_data` and returns `none` on
`IndexError` (the `try/except IndexError: return None`); every other
exception propagates. On success it builds the entity view at the
(normalised) index. -/
def get_entity (s : ModelState) (k : EntityKind) (eid : EntityId) (hidx : Int)
    (conn : Bool) : Except PyError (Option ModelEntity) :=
  match
    (if hidx < 0 ∧ hidx ≠ -1 then
      match s.entity_history k eid with
      | .error e => .error e
      | .ok h => .ok (hidx + (h.length : Int))
    else (.ok hidx : Except PyError Int)) with
  | .error e => .error e
  | .ok idx =>
    match s.entity_data k eid idx with
    | .error .indexError => .ok none
    | .error e => .error e
    | .ok _ => .ok (some ⟨k, eid, idx, conn⟩)

end ModelState

/-- The history update performed by `apply_delta`: `history.append(delta.data)`,
then `history.append(None)` when the delta is a removal. -/
def applyHistory (h : EntityHistory) (d : Delta) : EntityHistory :=
  let h' := h ++ [d.data]
  if d.type = DeltaType.remove then h' ++ [none] else h'

namespace ModelEntity

/-- `ModelEntity.data`: re-reads the store at this view's index. -/
def data (e : ModelEntity) (s : ModelState) : Except PyError Snapshot :=
  s.entity_data e.entity_type e.entity_id e.history_index

/-- `ModelEntity.__getattr__`: raises `DeadEntityException` when the resolved
snapshot is a tombstone, otherwise `self.data[name]` (a `KeyError` when the
field is absent). -/
def getattr (e : ModelEntity) (s : ModelState) (nm : String) : Except PyError String :=
  match e.data s with
  | .error er => .error er
  | .ok none => .error .deadEntity
  | .ok (some d) =>
    match alookup nm d with
    | none => .error .keyError
    | some v => .ok v

/-- `ModelEntity.current`: true iff the view floats at the live edge. -/
def current (e : ModelEntity) : Bool :=
  e.history_index = -1

/-- `ModelEntity.dead`: `self.data is None or entity_data(..., -1) is None`
(Python `or` short-circuits before the second read). -/
def dead (e : ModelEntity) (s : ModelState) : Except PyError Bool :=
  match e.data s with
  | .error er => .error er
  | .ok none => .ok true
  | .ok (some _) =>
    match s.entity_data e.entity_type e.entity_id (-1) with
    | .error er => .error er
    | .ok latestSnap => .ok (latestSnap = none)

/-- `ModelEntity.alive`: `not self.dead`. -/
def alive (e : ModelEntity) (s : ModelState) : Except PyError Bool :=
  match e.dead s with
  | .error er => .error er
  | .ok b => .ok (!b)

/-- `ModelEntity.previous`: `get_entity(..., self._history_index - 1,
connected=False)`. -/
def previous (e : ModelEntity) (s : ModelState) : Except PyError (Option ModelEntity) :=
  s.get_entity e.entity_type e.entity_id (e.history_index - 1) false

/-- `ModelEntity.next`: returns `None` when the view is current; otherwise
computes `new_index = _history_index + 1` and
`connected = (new_index == len(history) - 1)`, but then calls
`get_entity(..., self._history_index - 1, connected=connected)` — the index
passed is `_history_index - 1`, exactly as in the source. -/
def next (e : ModelEntity) (s : ModelState) : Except PyError (Option ModelEntity) :=
  if e.history_index = -1 then .ok none
  else
    match s.entity_history e.entity_type e.entity_id with
    | .error er => .error er
    | .ok h =>
      let new_index := e.history_index + 1
      let conn : Bool := new_index = (h.length : Int) - 1
      s.get_entity e.entity_type e.entity_id (e.history_index - 1) conn

/-- `ModelEntity.latest`: self when current, else a fresh connected view via
`get_entity` at the default index `-1`. -/
def latest (e : ModelEntity) (s : ModelState) : Except PyError (Option ModelEntity) :=
  if e.history_index = -1 then .ok (some e)
  else s.get_entity e.entity_type e.entity_id (-1) true

end ModelEntity

namespace ModelState

/-- `ModelState.apply_delta`: looks up / lazily creates the history for
`(delta.entity, delta.get_id())`, appends `delta.data` (plus a tombstone for a
removal), then returns the updated state together with
`(entity.previous(), entity)` where `entity = get_entity(delta.entity,
delta.get_id())`. The impossible `entity is None` branch (the history was just
appended to) is modelled as `AttributeError`, which is what
`None.previous()` would raise. -/
def apply_delta (s : ModelState) (d : Delta) :
    ModelState × Except PyError (Option ModelEntity × Option ModelEntity) :=
  let s' : ModelState :=
    ⟨updateAssoc s.state d.entity []
      (fun m => updateAssoc m d.id [] (fun h => applyHistory h d))⟩
  let res : Except PyError (Option ModelEntity × Option ModelEntity) :=
    match s'.get_entity d.entity d.id (-1) true with
    | .error e => .error e
    | .ok none => .error .attributeError
    | .ok (some ent) =>
      match ent.previous s' with
      | .error e => .error e
      | .ok old => .ok (old, some ent)
  (s', res)

/-- `ModelState._live_entity_map` body, iterating the id-to-history dict in
insertion order: skip entries whose latest snapshot (`history[-1]`, an
`IndexError` on an empty deque) is a tombstone, and map the rest through
`get_entity(entity_type, entity_id)` with the default index `-1`,
`connected=True`. -/
def liveEntries (s : ModelState) (k : EntityKind) :
    List (EntityId × EntityHistory) → Except PyError (List (EntityId × Option ModelEntity))
  | [] => .ok []
  | (eid, h) :: rest =>
    match dequeGet h (-1) with
    | none => .error .indexError
    | some none => liveEntries s k rest
    | some (some _) =>
      match s.get_entity k eid (-1) true with
      | .error er => .error er
      | .ok e =>
        match liveEntries s k rest with
        | .error er => .error er
        | .ok l => .ok ((eid, e) :: l)

/-- `ModelState._live_entity_map`: the dict comprehension over
`self.state.get(entity_type, {})`. -/
def live_entity_map (s : ModelState) (k : EntityKind) :
    Except PyError (List (EntityId × Option ModelEntity)) :=
  s.liveEntries k ((alookup k s.state).getD [])

/-- `ModelState.applications`. -/
def applications (s : ModelState) : Except PyError (List (EntityId × Option ModelEntity)) :=
  s.live_entity_map "application"

/-- `ModelState.machines`. -/
def machines (s : ModelState) : Except PyError (List (EntityId × Option ModelEntity)) :=
  s.live_entity_map "machine"

/-- `ModelState.units`. -/
def units (s : ModelState) : Except PyError (List (EntityId × Option ModelEntity)) :=
  s.live_entity_map "unit"

end ModelState

/-- The history recorded for `(k, eid)` before an update, with `[]` for an
entity that has no history yet (the value the lazily-created deque starts
from in `apply_delta`). -/
def priorHistory (s : ModelState) (k : EntityKind) (eid : EntityId) : EntityHistory :=
  match s.entity_history k eid with
  | .ok h => h
  | .error _ => []

/-- Whether any history (of either kind of key) is recorded for `(k, eid)`:
mirrors `entity_id in self.state.get(entity_type, {})`. -/
def hasHistory (s : ModelState) (k : EntityKind) (eid : EntityId) : Bool :=
  match alookup k s.state with
  | none => false
  | some m => (alookup eid m).isSome

/-- Structural well-formedness a `ModelState` built through `apply_delta`
always has, and which Python dicts/deques guarantee for free: the per-kind
id dict has no duplicate keys, and every recorded history is non-empty
(a deque is created only to be appended to at once). -/
def WF (s : ModelState) : Prop :=
  ∀ p ∈ s.state, (p.2.map Prod.fst).Nodup ∧ ∀ q ∈ p.2, q.2 ≠ []

/-- Modelled from the spec for comparison with `live_entity_map`: the map of
exactly those ids whose latest snapshot is not a tombstone, each sent to a
connected view at the latest index. -/
def liveEntitiesSpec (s : ModelState) (k : EntityKind) : List (EntityId × Option ModelEntity) :=
  ((alookup k s.state).getD []).filterMap (fun p =>
    match p.2.getLast? with
    | some (some _) => some (p.1, some ⟨k, p.1, -1, true⟩)
    | _ => none)

/-- The absolute history position a view resolves to: index `-1` denotes the
latest position, any other index denotes itself. Used to state the
navigation round-trip property. -/
def effectiveIndex (s : ModelState) (e : ModelEntity) : Int :=
  match s.entity_history e.entity_type e.entity_id with
  | .ok h => if e.history_index = -1 then (h.length : Int) - 1 else e.history_index
  | .error _ => e.history_index

/-- Indexing a deque at `-1` selects its last element. -/
theorem dequeGet_neg_one (h : EntityHistory) : dequeGet h (-1) = h.getLast? := by
  cases h with
  | nil => simp [dequeGet]
  | cons a t =>
    have hl : ((a :: t).length : Int) = (t.length : Int) + 1 := by
      simp [List.length_cons]
    simp only [dequeGet]
    rw [if_neg (by decide), if_neg (by omega)]
    have ht : ((-1) + (((a :: t).length : Nat) : Int)).toNat = (a :: t).length - 1 := by
      omega
    rw [ht, List.get?_eq_getElem?, List.getLast?_eq_getElem?]

/-- Looking up the updated key after `updateAssoc` sees the updated value. -/
theorem alookup_updateAssoc_self {β : Type} (m : List (String × β)) (k : String)
    (dflt : β) (f : β → β) :
    alookup k (updateAssoc m k dflt f) = some (f ((alookup k m).getD dflt)) := by
  induction m with
  | nil => simp [alookup, updateAssoc]
  | cons p rest ih =>
    by_cases hk : p.1 = k
    · simp [alookup, updateAssoc, hk]
    · simp [alookup, updateAssoc, hk, ih]

/-- Looking up any other key after `updateAssoc` is unchanged. -/
theorem alookup_updateAssoc_ne {β : Type} (m : List (String × β)) (k k' : String)
    (dflt : β) (f : β → β) (hne : k' ≠ k) :
    alookup k' (updateAssoc m k dflt f) = alookup k' m := by
  induction m with
  | nil => simp [alookup, updateAssoc, Ne.symm hne]
  | cons p rest ih =>
    by_cases hk : p.1 = k
    · subst hk
      simp [alookup, updateAssoc, Ne.symm hne]
    · simp [alookup, updateAssoc, hk, ih]

/-- After `apply_delta`, the delta's own entity has history
`applyHistory (prior history) delta`. -/
theorem entity_history_apply_delta_self (s : ModelState) (d : Delta) :
    ((s.apply_delta d).1).entity_history d.entity d.id =
      .ok (applyHistory (priorHistory s d.entity d.id) d) := by
  simp only [ModelState.apply_delta, ModelState.entity_history,
    alookup_updateAssoc_self, priorHistory]
  cases hk : alookup d.entity s.state with
  | none => simp [ModelState.entity_history, hk, alookup, alookup_updateAssoc_self]
  | some m =>
    cases hi : alookup d.id m with
    | none => simp [ModelState.entity_history, hk, hi, alookup_updateAssoc_self]
    | some h => simp [ModelState.entity_history, hk, hi, alookup_updateAssoc_self]

/-- After `apply_delta`, every other entity's history is untouched. -/
theorem entity_history_apply_delta_other (s : ModelState) (d : Delta)
    (k : EntityKind) (eid : EntityId) (hne : ¬(k = d.entity ∧ eid = d.id)) :
    ((s.apply_delta d).1).entity_history k eid = s.entity_history k eid := by
  by_cases hk : k = d.entity
  · subst hk
    have hid : eid ≠ d.id := fun h => hne ⟨rfl, h⟩
    simp only [ModelState.apply_delta, ModelState.entity_history,
      alookup_updateAssoc_self, alookup_updateAssoc_ne _ _ _ _ _ hid]
    cases hkk : alookup d.entity s.state with
    | none => simp [hkk, alookup]
    | some m => simp [hkk]
  · simp only [ModelState.apply_delta, ModelState.entity_history,
      alookup_updateAssoc_ne _ _ _ _ _ hk]

/-- A successful `alookup` result is an entry of the list. -/
theorem alookup_mem {β : Type} (k : String) (l : List (String × β)) (v : β)
    (h : alookup k l = some v) : (k, v) ∈ l := by
  induction l with
  | nil => simp [alookup] at h
  | cons p rest ih =>
    obtain ⟨a, b⟩ := p
    simp only [alookup] at h
    by_cases hk : a = k
    · subst hk
      simp only [if_pos rfl] at h
      injection h with h
      subst h
      exact List.mem_cons_self _ _
    · simp only [if_neg hk] at h
      exact List.mem_cons_of_mem _ (ih h)

/-- On a duplicate-free association list, membership determines `alookup`. -/
theorem alookup_of_mem_nodup {β : Type} (k : String) (l : List (String × β)) (v : β)
    (hmem : (k, v) ∈ l) (hnd : (l.map Prod.fst).Nodup) : alookup k l = some v := by
  induction l with
  | nil => simp at hmem
  | cons p rest ih =>
    obtain ⟨a, b⟩ := p
    simp only [List.map_cons, List.nodup_cons] at hnd
    rcases List.mem_cons.mp hmem with heq | hmem'
    · injection heq with h1 h2
      subst h1; subst h2
      simp [alookup]
    · by_cases hk : a = k
      · subst hk
        exact absurd (List.mem_map_of_mem Prod.fst hmem') hnd.1
      · simp only [alookup, if_neg hk]
        exact ih hmem' hnd.2

/-- On an entity whose history resolves at `-1`, `get_entity` with the default
index builds the view at the latest marker. -/
theorem get_entity_neg_one_ok (s : ModelState) (k : EntityKind) (eid : EntityId)
    (h : EntityHistory) (snap : Snapshot) (conn : Bool)
    (hh : s.entity_history k eid = .ok h) (hl : h.getLast? = some snap) :
    s.get_entity k eid (-1) conn = .ok (some ⟨k, eid, -1, conn⟩) := by
  have hcond : ¬((-1 : Int) < 0 ∧ (-1 : Int) ≠ -1) := by simp
  simp only [ModelState.get_entity]
  rw [if_neg hcond]
  simp only [ModelState.entity_data, hh, dequeGet_neg_one, hl]

/-- The comprehension body of `_live_entity_map`, characterised as a
`filterMap` over the id dict when every listed history is the one
`entity_history` resolves and is non-empty. -/
theorem liveEntries_spec (s : ModelState) (k : EntityKind)
    (l : List (EntityId × EntityHistory))
    (hx : ∀ p ∈ l, s.entity_history k p.1 = .ok p.2 ∧ p.2 ≠ []) :
    s.liveEntries k l = .ok (l.filterMap (fun p =>
      match p.2.getLast? with
      | some (some _) => some (p.1, some ⟨k, p.1, -1, true⟩)
      | _ => none)) := by
  induction l with
  | nil => simp [ModelState.liveEntries]
  | cons p rest ih =>
    obtain ⟨eid, h⟩ := p
    obtain ⟨hh, hne⟩ := hx _ (List.mem_cons_self _ _)
    have hrest : ∀ q ∈ rest, s.entity_history k q.1 = .ok q.2 ∧ q.2 ≠ [] :=
      fun q hq => hx q (List.mem_cons_of_mem _ hq)
    have hsnap : h.getLast? = some (h.getLast hne) :=
      List.getLast?_eq_getLast_of_ne_nil hne
    cases hgl : h.getLast hne with
    | none =>
      rw [hgl] at hsnap
      simp only [ModelState.liveEntries, dequeGet_neg_one, hsnap, ih hrest]
      simp [List.filterMap_cons, hsnap]
    | some dmap =>
      rw [hgl] at hsnap
      simp only [ModelState.liveEntries, dequeGet_neg_one, hsnap,
        get_entity_neg_one_ok s k eid h (some dmap) true hh hsnap, ih hrest]
      simp [List.filterMap_cons, hsnap]

/-- Claim C1 (failing-input evaluation): applying the very first delta for
`(machine, "0")` to an empty store returns an `old` view that is NOT null —
it is a disconnected view at the latest marker `-1`, whose data equals the
delta's own data. The claim (and `apply_delta`'s and `previous`'s own
docstrings) require `old == null` here, since no snapshot S existed before
this first delta. -/
theorem apply_delta_creation_old_is_latest_view :
    (ModelState.apply_delta ⟨[]⟩ ⟨"machine", DeltaType.add, "0", some [("life","alive")]⟩).2 =
      .ok (some ⟨"machine", "0", -1, false⟩, some ⟨"machine", "0", -1, true⟩) ∧
    (ModelEntity.mk "machine" "0" (-1) false).data
        (ModelState.apply_delta ⟨[]⟩ ⟨"machine", DeltaType.add, "0", some [("life","alive")]⟩).1 =
      .ok (some [("life","alive")]) := ⟨rfl, rfl⟩

/-- Claim C2 (failing-input evaluation): on a three-snapshot history, `next()`
of the view at index 1 returns the view at index 0 — one step backwards —
because the source passes `self._history_index - 1` to `get_entity` instead
of the computed `new_index = self._history_index + 1`. The claim (and the
method's own docstring, "its next state in history") require the view at
index `1 + 1 = 2`; the returned view's index 0 is not that. -/
theorem next_returns_prior_index :
    ModelEntity.next ⟨"machine", "0", 1, false⟩
        ⟨[("machine", [("0", [some [("life","alive")], some [("life","dying")],
          some [("life","dead")]])])]⟩ =
      .ok (some ⟨"machine", "0", 0, true⟩) ∧
    (ModelEntity.mk "machine" "0" 0 true).history_index ≠ (1 : Int) + 1 :=
  ⟨rfl, by decide⟩

/-- Claim C3 (failing-input evaluation): on a three-snapshot history, for the
view V at the non-boundary index 1, `V.next().previous()` resolves to the
view at the latest marker (effective index 2), and `V.previous().next()`
does too — neither round-trips back to V's effective index 1, because
`next()` steps backwards and `previous()` of the index-0 view wraps to the
latest marker instead of returning null. -/
theorem roundtrip_broken :
    ModelEntity.next ⟨"machine", "0", 1, false⟩
        ⟨[("machine", [("0", [some [("life","alive")], some [("life","dying")],
          some [("life","dead")]])])]⟩ =
      .ok (some ⟨"machine", "0", 0, true⟩) ∧
    ModelEntity.previous ⟨"machine", "0", 0, true⟩
        ⟨[("machine", [("0", [some [("life","alive")], some [("life","dying")],
          some [("life","dead")]])])]⟩ =
      .ok (some ⟨"machine", "0", -1, false⟩) ∧
    ModelEntity.previous ⟨"machine", "0", 1, false⟩
        ⟨[("machine", [("0", [some [("life","alive")], some [("life","dying")],
          some [("life","dead")]])])]⟩ =
      .ok (some ⟨"machine", "0", 0, false⟩) ∧
    ModelEntity.next ⟨"machine", "0", 0, false⟩
        ⟨[("machine", [("0", [some [("life","alive")], some [("life","dying")],
          some [("life","dead")]])])]⟩ =
      .ok (some ⟨"machine", "0", -1, false⟩) ∧
    effectiveIndex
        ⟨[("machine", [("0", [some [("life","alive")], some [("life","dying")],
          some [("life","dead")]])])]⟩ ⟨"machine", "0", -1, false⟩ = 2 ∧
    effectiveIndex
        ⟨[("machine", [("0", [some [("life","alive")], some [("life","dying")],
          some [("life","dead")]])])]⟩ ⟨"machine", "0", 1, false⟩ = 1 ∧
    (2 : Int) ≠ 1 :=
  ⟨rfl, rfl, rfl, rfl, by decide, by decide, by decide⟩

/-- Claim C4 counterexample: applying a remove delta (whose data is null, per
the spec's own data model) to an entity whose prior mapping was
`{"life": "alive"}` yields the history `[{"life": "alive"}, ⊥, ⊥]`: the
entry one index before the final tombstone is itself `none`, not the prior
data mapping, so "the prior data mapping is appended first" is false. -/
theorem remove_tombstone_pair_counterexample :
    ((ModelState.apply_delta ⟨[("machine", [("0", [some [("life","alive")]])])]⟩
        ⟨"machine", DeltaType.remove, "0", none⟩).1).entity_history "machine" "0" =
      .ok [some [("life","alive")], none, none] ∧
    dequeGet [some [("life","alive")], none, none] (-2) = some none ∧
    some [("life","alive")] ≠ (none : Snapshot) :=
  ⟨rfl, rfl, by decide⟩

/-- Claim C4 (amended): for every remove delta applied via `apply_delta`, the
entity's history grows by exactly two entries — the delta's own data payload
is appended first and a tombstone is appended immediately after, in that
order. (Only when that payload equals the prior data mapping does the last
state before death sit one index before the tombstone.) -/
theorem apply_remove_appends_data_then_tombstone (s : ModelState) (d : Delta)
    (hrem : d.type = DeltaType.remove) :
    ((s.apply_delta d).1).entity_history d.entity d.id =
      .ok (priorHistory s d.entity d.id ++ [d.data, none]) ∧
    (∀ h0, s.entity_history d.entity d.id = .ok h0 →
      (priorHistory s d.entity d.id ++ [d.data, none]).length = h0.length + 2) := by
  constructor
  · rw [entity_history_apply_delta_self]
    simp [applyHistory, hrem]
  · intro h0 hh0
    simp [priorHistory, hh0]

/-- Witness for claim C4's amended theorem at a concrete remove delta. -/
theorem apply_remove_appends_data_then_tombstone_witness :
    ((ModelState.apply_delta ⟨[("machine", [("0", [some [("life","alive")]])])]⟩
        ⟨"machine", DeltaType.remove, "0", none⟩).1).entity_history "machine" "0" =
      .ok (priorHistory ⟨[("machine", [("0", [some [("life","alive")]])])]⟩ "machine" "0" ++
        [none, none]) :=
  (apply_remove_appends_data_then_tombstone
    ⟨[("machine", [("0", [some [("life","alive")]])])]⟩
    ⟨"machine", DeltaType.remove, "0", none⟩ rfl).1

/-- Claim C5: on any well-formed store, `_live_entity_map` returns exactly the
ids whose latest history snapshot is not a tombstone, each mapped to a
connected view at the latest index — a pure function of the store's state at
call time — and the `applications`/`machines`/`units` accessors are exactly
this query at their respective kinds. -/
theorem live_entity_map_exact (s : ModelState) (k : EntityKind) (hwf : WF s) :
    s.live_entity_map k = .ok (liveEntitiesSpec s k) ∧
    s.applications = s.live_entity_map "application" ∧
    s.machines = s.live_entity_map "machine" ∧
    s.units = s.live_entity_map "unit" := by
  refine ⟨?_, rfl, rfl, rfl⟩
  unfold ModelState.live_entity_map liveEntitiesSpec
  cases hk : alookup k s.state with
  | none => simp [ModelState.liveEntries]
  | some m =>
    have hm : (k, m) ∈ s.state := alookup_mem k s.state m hk
    obtain ⟨hnd, hne⟩ := hwf _ hm
    simp only [Option.getD_some]
    apply liveEntries_spec
    intro p hp
    refine ⟨?_, hne p hp⟩
    simp only [ModelState.entity_history, hk]
    rw [alookup_of_mem_nodup p.1 m p.2 (by simpa using hp) hnd]

/-- Witness for claim C5: on a store holding one dead entity "0" and one live
entity "1", the live-entity map contains exactly "1", as a connected view at
the latest marker. -/
theorem live_entity_map_exact_witness :
    WF ⟨[("machine", [("0", [some [("life","alive")], none, none]),
      ("1", [some [("life","alive")]])])]⟩ ∧
    (⟨[("machine", [("0", [some [("life","alive")], none, none]),
      ("1", [some [("life","alive")]])])]⟩ : ModelState).live_entity_map "machine" =
      .ok [("1", some ⟨"machine", "1", -1, true⟩)] := by
  have hwf : WF ⟨[("machine", [("0", [some [("life","alive")], none, none]),
      ("1", [some [("life","alive")]])])]⟩ := by
    unfold WF
    decide
  refine ⟨hwf, ?_⟩
  have h1 := (live_entity_map_exact ⟨[("machine", [("0", [some [("life","alive")], none, none]),
      ("1", [some [("life","alive")]])])]⟩ "machine" hwf).1
  rw [h1]
  rfl

/-- Claim C6: on any view whose resolved snapshot is a tombstone, reading any
named attribute fails with the dead-entity error, whatever the name; on a
view resolved to a live snapshot, attribute access returns the field's
value, and fails with the missing-field (`KeyError`) error when absent. -/
theorem getattr_contract (s : ModelState) (e : ModelEntity) (nm : String) :
    (e.data s = .ok none → e.getattr s nm = .error .deadEntity) ∧
    (∀ d v, e.data s = .ok (some d) → alookup nm d = some v → e.getattr s nm = .ok v) ∧
    (∀ d, e.data s = .ok (some d) → alookup nm d = none →
      e.getattr s nm = .error .keyError) := by
  refine ⟨?_, ?_, ?_⟩
  · intro hd
    simp [ModelEntity.getattr, hd]
  · intro d v hd hv
    simp [ModelEntity.getattr, hd, hv]
  · intro d hd hv
    simp [ModelEntity.getattr, hd, hv]

/-- Witness for claim C6 on a store whose entity "0" died: the tombstone view
rejects every read with the dead-entity error, the live historical view
serves `life` and rejects the absent field `size` with `KeyError`. -/
theorem getattr_contract_witness :
    (ModelEntity.mk "machine" "0" (-1) true).getattr
        ⟨[("machine", [("0", [some [("life","alive")], none, none])])]⟩ "life" =
      .error .deadEntity ∧
    (ModelEntity.mk "machine" "0" 0 true).getattr
        ⟨[("machine", [("0", [some [("life","alive")], none, none])])]⟩ "life" =
      .ok "alive" ∧
    (ModelEntity.mk "machine" "0" 0 true).getattr
        ⟨[("machine", [("0", [some [("life","alive")], none, none])])]⟩ "size" =
      .error .keyError :=
  ⟨(getattr_contract ⟨[("machine", [("0", [some [("life","alive")], none, none])])]⟩
      (ModelEntity.mk "machine" "0" (-1) true) "life").1 rfl,
   (getattr_contract ⟨[("machine", [("0", [some [("life","alive")], none, none])])]⟩
      (ModelEntity.mk "machine" "0" 0 true) "life").2.1 [("life","alive")] "alive" rfl rfl,
   (getattr_contract ⟨[("machine", [("0", [some [("life","alive")], none, none])])]⟩
      (ModelEntity.mk "machine" "0" 0 true) "size").2.2 [("life","alive")] rfl rfl⟩

/-- Claim C7 (failing-input evaluation): on a history of length 1 (valid
index range `-1..0`), resolving index `-2` — outside the recorded range —
does NOT yield the null result: after the one-shot normalisation
`-2 + 1 = -1` the index is re-interpreted by the deque as "latest", so
`get_entity` returns a view over the latest snapshot (here, the only
snapshot). `previous()`'s own docstring ("Returns None if this object is
new") depends on the null result the claim describes. -/
theorem get_entity_double_wrap :
    ModelState.get_entity ⟨[("machine", [("0", [some [("life","alive")]])])]⟩
        "machine" "0" (-2) false =
      .ok (some ⟨"machine", "0", -1, false⟩) ∧
    (ModelEntity.mk "machine" "0" (-1) false).data
        ⟨[("machine", [("0", [some [("life","alive")]])])]⟩ =
      .ok (some [("life","alive")]) ∧
    ([some [("life","alive")]] : EntityHistory).length = 1 :=
  ⟨rfl, rfl, rfl⟩

/-- Claim C8: history is append-only — whatever history an entity has before
`apply_delta`, its history afterwards is that same list with zero or more
snapshots appended at the end; snapshots `[0..N-1]` are never mutated or
removed. (All remaining operations — `get_entity`, navigation, the
live-entity queries — are read-only functions of the state and return no
modified store at all.) -/
theorem apply_delta_append_only (s : ModelState) (d : Delta) (k : EntityKind)
    (eid : EntityId) (h : EntityHistory)
    (hh : s.entity_history k eid = .ok h) :
    ∃ rest, ((s.apply_delta d).1).entity_history k eid = .ok (h ++ rest) := by
  by_cases htgt : k = d.entity ∧ eid = d.id
  · obtain ⟨hk, hi⟩ := htgt
    subst hk; subst hi
    have hp : priorHistory s d.entity d.id = h := by simp [priorHistory, hh]
    by_cases hr : d.type = DeltaType.remove
    · exact ⟨[d.data, none], by
        rw [entity_history_apply_delta_self, hp]; simp [applyHistory, hr]⟩
    · exact ⟨[d.data], by
        rw [entity_history_apply_delta_self, hp]; simp [applyHistory, hr]⟩
  · exact ⟨[], by simpa using (entity_history_apply_delta_other s d k eid htgt).trans hh⟩

/-- Witness for claim C8: a change delta applied to a one-snapshot history
extends it, keeping the existing snapshot as a prefix. -/
theorem apply_delta_append_only_witness :
    ∃ rest, ((ModelState.apply_delta ⟨[("machine", [("0", [some [("life","alive")]])])]⟩
        ⟨"machine", DeltaType.change, "0", some [("life","dying")]⟩).1).entity_history
        "machine" "0" = .ok ([some [("life","alive")]] ++ rest) :=
  apply_delta_append_only ⟨[("machine", [("0", [some [("life","alive")]])])]⟩
    ⟨"machine", DeltaType.change, "0", some [("life","dying")]⟩ "machine" "0"
    [some [("life","alive")]] rfl

/-- Claim C10: for a `(kind, id)` pair with no recorded history,
`entity_history`, `entity_data` (at every index) and `get_entity` (at every
index, connected or not) all raise `KeyError` rather than returning a null
result; the null result is reserved for an out-of-range index within an
existing history. -/
theorem missing_entity_keyerror (s : ModelState) (k : EntityKind) (eid : EntityId)
    (hmiss : hasHistory s k eid = false) :
    s.entity_history k eid = .error .keyError ∧
    (∀ idx : Int, s.entity_data k eid idx = .error .keyError) ∧
    (∀ (idx : Int) (conn : Bool), s.get_entity k eid idx conn = .error .keyError) := by
  have hh : s.entity_history k eid = .error .keyError := by
    unfold hasHistory at hmiss
    unfold ModelState.entity_history
    cases hk : alookup k s.state with
    | none => rfl
    | some m =>
      rw [hk] at hmiss
      simp only [Option.isSome] at hmiss
      cases hi : alookup eid m with
      | none => simp [hi]
      | some h => rw [hi] at hmiss; simp at hmiss
  refine ⟨hh, ?_, ?_⟩
  · intro idx
    simp [ModelState.entity_data, hh]
  · intro idx conn
    by_cases hc : idx < 0 ∧ idx ≠ -1
    · simp only [ModelState.get_entity]
      rw [if_pos hc, hh]
    · simp only [ModelState.get_entity]
      rw [if_neg hc]
      simp [ModelState.entity_data, hh]

/-- Witness for claim C10 on the empty store. -/
theorem missing_entity_keyerror_witness :
    (⟨[]⟩ : ModelState).entity_history "machine" "0" = .error .keyError ∧
    (⟨[]⟩ : ModelState).entity_data "machine" "0" 0 = .error .keyError ∧
    (⟨[]⟩ : ModelState).get_entity "machine" "0" 0 true = .error .keyError :=
  ⟨(missing_entity_keyerror ⟨[]⟩ "machine" "0" rfl).1,
   (missing_entity_keyerror ⟨[]⟩ "machine" "0" rfl).2.1 0,
   (missing_entity_keyerror ⟨[]⟩ "machine" "0" rfl).2.2 0 true⟩
